import Mathlib

/-!
Verification of the paperang protocol codec (`paperang.py`).

Byte strings are modelled as `List Nat` whose elements are below 256.
Python exceptions (from `struct.pack` / `struct.unpack` range checks and
from `assert`) are modelled with `Option` / `Except`.
-/

/-! ## CRC-32 (zlib semantics)

`zlib.crc32(content, value)` uses the standard reflected CRC-32
(polynomial class 0xEDB88320, the zip/gzip/PNG table).  The start `value`
is treated as a running CRC continuation value: internally the register is
initialised to `value XOR 0xFFFFFFFF`, each byte is folded through the
table, and the final register is inverted again. -/

def crcRound (c : Nat) : Nat :=
  if c % 2 = 1 then 0xEDB88320 ^^^ (c / 2) else c / 2

def crcTableEntry (n : Nat) : Nat :=
  crcRound^[8] n

def crcStep (c b : Nat) : Nat :=
  crcTableEntry ((c ^^^ b) % 256) ^^^ (c / 256)

def zlibCrc32 (value : Nat) (content : List Nat) : Nat :=
  (content.foldl crcStep ((value % 2 ^ 32) ^^^ 0xFFFFFFFF)) ^^^ 0xFFFFFFFF

/-- Modelled from the spec (for comparison with the code's checksum):
standard reflected CRC-32 in which the given 32-bit seed is used *as the
initial register state* in place of the conventional all-ones seed, with
only the standard final inversion. -/
def crc32SpecSeeded (seed : Nat) (content : List Nat) : Nat :=
  (content.foldl crcStep (seed % 2 ^ 32)) ^^^ 0xFFFFFFFF

/-! ## Checksum key state (`Paperang.crckeyset` / `Paperang.crcKey`) -/

structure KeyState where
  crckeyset : Bool
  crcKey : Nat
deriving Repr, DecidableEq

/-- `Paperang.standardKey`. -/
def standardKey : Nat := 0x35769521

/-- The key effectively used by `Paperang.crc32`:
`self.crcKey if self.crckeyset else self.standardKey`. -/
def activeKey (s : KeyState) : Nat :=
  if s.crckeyset then s.crcKey else standardKey

/-- `Paperang.crc32`: `zlib.crc32(content, key) & 0xFFFFFFFF`. -/
def crc32 (s : KeyState) (content : List Nat) : Nat :=
  zlibCrc32 (activeKey s) content &&& 0xFFFFFFFF

/-! ## `struct.pack` pieces (little-endian) -/

/-- `struct.pack("<B", n)`: one byte; `struct.error` when out of range. -/
def packU8 (n : Nat) : Option (List Nat) :=
  if n < 256 then some [n] else none

/-- `struct.pack("<H", n)`: two little-endian bytes. -/
def packU16le (n : Nat) : Option (List Nat) :=
  if n < 65536 then some [n % 256, n / 256] else none

/-- Little-endian layout of a value below `2 ^ 32`. -/
def le32 (n : Nat) : List Nat :=
  [n % 256, n / 256 % 256, n / 256 ^ 2 % 256, n / 256 ^ 3 % 256]

/-- `struct.pack("<I", n)`: four little-endian bytes. -/
def packU32le (n : Nat) : Option (List Nat) :=
  if n < 2 ^ 32 then some (le32 n) else none

/-! ## Frame encoding and chunking -/

/-- `Paperang.packPerBytes`: start marker 2, command byte, sequence byte,
u16 payload length, payload, u32 checksum of the payload, end marker 3. -/
def packPerBytes (s : KeyState) (bytes : List Nat) (control_command i : Nat) :
    Option (List Nat) := do
  let start ← packU8 2
  let cmd ← packU8 control_command
  let seq ← packU8 i
  let len ← packU16le bytes.length
  let crc ← packU32le (crc32 s bytes)
  let stop ← packU8 3
  return start ++ cmd ++ seq ++ len ++ bytes ++ crc ++ stop

/-- `Paperang.max_send_msg_length`. -/
def max_send_msg_length : Nat := 1536

/-- The comprehension `[bytes[i:i+length] for i in range(0, len(bytes), length)]`
for a positive step `length` (`range(0, n, L)` has `(n + L - 1) / L` elements). -/
def sliceChunks (length : Nat) (bytes : List Nat) : List (List Nat) :=
  (List.range' 0 ((bytes.length + length - 1) / length) length).map
    (fun i => (bytes.drop i).take length)

/-- `Paperang.addBytesToList`: slice into chunks of `max_send_msg_length`. -/
def addBytesToList (bytes : List Nat) : List (List Nat) :=
  sliceChunks max_send_msg_length bytes

/-- `BtCommandByte.PRT_SET_CRC_KEY`. -/
def PRT_SET_CRC_KEY : Nat := 24

/-- `BtCommandByte.PRT_SET_HEAT_DENSITY`. -/
def PRT_SET_HEAT_DENSITY : Nat := 25

/-- `BtCommandByte.PRT_FEED_LINE`. -/
def PRT_FEED_LINE : Nat := 26

/-- `Paperang.sendToBt`, as the list of frames it writes to the transport:
`enumerate(addBytesToList(data_bytes))` packed with `packPerBytes`. -/
def sendToBt (s : KeyState) (data_bytes : List Nat) (control_command : Nat) :
    List (Option (List Nat)) :=
  (addBytesToList data_bytes).enum.map
    (fun p => packPerBytes s p.2 control_command p.1)

/-- `Paperang.sendDensityToBt`: pack the density into one byte and send
with command `PRT_SET_HEAT_DENSITY`. -/
def sendDensityToBt (s : KeyState) (density : Nat) :
    Option (List (Option (List Nat))) :=
  (packU8 density).map (fun msg => sendToBt s msg PRT_SET_HEAT_DENSITY)

/-- Default argument of `Paperang.registerCrcKeyToBt`: `0x6968634 ^ 0x2E696D`. -/
def registerCrcKeyDefault : Nat := 0x6968634 ^^^ 0x2E696D

/-- `Paperang.registerCrcKeyToBt`: pack `key ^ standardKey` little-endian,
send it with `PRT_SET_CRC_KEY` under the *current* state, then record the
new key and set `crckeyset`.  Returns the frames sent and the new state;
`none` models a `struct.error` from `struct.pack("<I", ...)`. -/
def registerCrcKeyToBt (s : KeyState) (key : Nat := registerCrcKeyDefault) :
    Option (List (Option (List Nat)) × KeyState) :=
  match packU32le (key ^^^ standardKey) with
  | none => none
  | some msg =>
      some (sendToBt s msg PRT_SET_CRC_KEY, { crckeyset := true, crcKey := key })

/-! ## Response parsing (`Paperang.resultParser`) -/

/-- The record built for each parsed frame (class `Info`): the parser
stores the command byte, the declared payload length, the payload slice
and the four raw checksum bytes; the sequence byte is discarded by the
`_` in `struct.unpack`, and the checksum bytes are never compared with a
recomputation. -/
structure Info where
  command : Nat
  payload_length : Nat
  payload : List Nat
  crc32 : List Nat
deriving Repr, DecidableEq

/-- The guard `data[base] == "\x02"` of `resultParser`'s loop: under
Python 3 `data` is `bytes`, so `data[base]` is an `int`, and an `int`
never equals a `str`; the comparison evaluates to `False` for every byte. -/
def py3MarkerTest (_b : Nat) : Bool := false

/-- The `while` loop of `Paperang.resultParser`, fuelled (each iteration
advances `base` by at least 10, so `data.length + 1` units of fuel are
enough).  While the marker test holds, `struct.unpack("<BBBH", ...)`
reads the five header bytes (`none` models `struct.error` when fewer than
five bytes remain), the payload and checksum are sliced out, and `base`
advances by `10 + payload_length`. -/
def parseFrames (markerTest : Nat → Bool) :
    Nat → List Nat → Nat → Option (List Info)
  | 0, _, _ => some []
  | fuel + 1, data, base =>
    if base < data.length ∧ markerTest (data.getD base 0) = true then
      let header := (data.drop base).take 5
      if header.length < 5 then none
      else
        let payload_length := header.getD 3 0 + 256 * header.getD 4 0
        let info : Info :=
          { command := header.getD 1 0
            payload_length := payload_length
            payload := (data.drop (base + 5)).take payload_length
            crc32 := (data.drop (base + 5 + payload_length)).take 4 }
        match parseFrames markerTest fuel data (base + 10 + payload_length) with
        | none => none
        | some rest => some (info :: rest)
    else some []

/-- `Paperang.resultParser` under Python 3 semantics. -/
def resultParser (data : List Nat) : Option (List Info) :=
  parseFrames py3MarkerTest (data.length + 1) data 0

/-! ## Bitmap packing (`_pack_block`, `binimage2bitstream`) -/

inductive PackError where
  /-- The `ValueError` raised by `_pack_block` when the bit count is not a
  multiple of 8. -/
  | invalidBitmapLength
  /-- A failure of `binimage2bitstream`'s `assert` line: either a pixel
  value outside {0, 1}, or the error numpy's `max`/`min` raise on an
  empty array. -/
  | badPixelValue
deriving Repr, DecidableEq

/-- `int(s, 2)` on an 8-character block of binary digits. -/
def bitsToByte (bits : List Nat) : Nat :=
  bits.foldl (fun a b => a * 2 + b) 0

/-- `_pack_block`: fails unless the bit count is a multiple of 8, then
turns each 8-bit group into one byte, first bit most significant. -/
def pack_block (bits : List Nat) : Except PackError (List Nat) :=
  if bits.length % 8 ≠ 0 then Except.error PackError.invalidBitmapLength
  else Except.ok ((List.range (bits.length / 8)).map
    (fun i => bitsToByte ((bits.drop (8 * i)).take 8)))

/-- `binimage2bitstream`: the `assert bin_image.max() <= 1 and
bin_image.min() >= 0` line errors on an empty array or a pixel above 1
(pixels are naturals, so nonnegativity is automatic); then the flattened
matrix is packed by `_pack_block`. -/
def binimage2bitstream (bin_image : List (List Nat)) :
    Except PackError (List Nat) :=
  if bin_image.flatten = [] then Except.error PackError.badPixelValue
  else if bin_image.flatten.all (fun p => p ≤ 1) then pack_block bin_image.flatten
  else Except.error PackError.badPixelValue

/-! ## Helper lemmas -/

theorem crcRound_lt {c : Nat} (h : c < 2 ^ 32) : crcRound c < 2 ^ 32 := by
  unfold crcRound
  split
  · exact Nat.xor_lt_two_pow (by norm_num) (Nat.lt_of_le_of_lt (Nat.div_le_self c 2) h)
  · exact Nat.lt_of_le_of_lt (Nat.div_le_self c 2) h

theorem crcRound_iterate_lt (k : Nat) {c : Nat} (h : c < 2 ^ 32) :
    crcRound^[k] c < 2 ^ 32 := by
  induction k with
  | zero => exact h
  | succ n ih => rw [Function.iterate_succ_apply']; exact crcRound_lt ih

theorem crcTableEntry_lt {n : Nat} (h : n < 2 ^ 32) : crcTableEntry n < 2 ^ 32 :=
  crcRound_iterate_lt 8 h

theorem crcStep_lt {c : Nat} (b : Nat) (h : c < 2 ^ 32) : crcStep c b < 2 ^ 32 := by
  unfold crcStep
  refine Nat.xor_lt_two_pow (crcTableEntry_lt ?_) (Nat.lt_of_le_of_lt (Nat.div_le_self c 256) h)
  exact Nat.lt_of_lt_of_le (Nat.mod_lt _ (by norm_num)) (by norm_num)

theorem foldl_crcStep_lt (l : List Nat) : ∀ {init : Nat}, init < 2 ^ 32 →
    l.foldl crcStep init < 2 ^ 32 := by
  induction l with
  | nil => intro init h; exact h
  | cons b t ih => intro init h; exact ih (crcStep_lt b h)

theorem zlibCrc32_lt (v : Nat) (l : List Nat) : zlibCrc32 v l < 2 ^ 32 := by
  unfold zlibCrc32
  refine Nat.xor_lt_two_pow (foldl_crcStep_lt l ?_) (by norm_num)
  exact Nat.xor_lt_two_pow (Nat.mod_lt _ (by norm_num)) (by norm_num)

theorem crc32_lt (s : KeyState) (content : List Nat) : crc32 s content < 2 ^ 32 :=
  Nat.lt_of_le_of_lt Nat.and_le_right (by norm_num)

theorem crc32_eq_zlibCrc32 (s : KeyState) (content : List Nat) :
    crc32 s content = zlibCrc32 (activeKey s) content := by
  unfold crc32
  have hm : (0xFFFFFFFF : Nat) = 2 ^ 32 - 1 := by norm_num
  rw [hm, Nat.and_pow_two_sub_one_of_lt_two_pow (zlibCrc32_lt _ _)]

theorem parseFrames_py3 (fuel : Nat) (data : List Nat) (base : Nat) :
    parseFrames py3MarkerTest fuel data base = some [] := by
  cases fuel with
  | zero => rfl
  | succ n => simp [parseFrames, py3MarkerTest]

theorem resultParser_eq_empty (data : List Nat) : resultParser data = some [] :=
  parseFrames_py3 _ _ _

theorem sliceChunks_nil (L : Nat) : sliceChunks L [] = [] := by
  match L with
  | 0 => rfl
  | Nat.succ k =>
    unfold sliceChunks
    rw [List.length_nil, Nat.zero_add, Nat.succ_sub_one,
      Nat.div_eq_of_lt (Nat.lt_succ_self k)]
    rfl

theorem sliceChunks_cons (L : Nat) (p : List Nat) (hL : 1 ≤ L) (hp : p ≠ []) :
    sliceChunks L p = p.take L :: sliceChunks L (p.drop L) := by
  have hn : 1 ≤ p.length := List.length_pos.mpr hp
  have hcount : (p.length + L - 1) / L = (p.length - 1) / L + 1 := by
    have : p.length + L - 1 = (p.length - 1) + L := by omega
    rw [this, Nat.add_div_right _ (Nat.lt_of_lt_of_le Nat.zero_lt_one hL)]
  have hcount' : ((p.drop L).length + L - 1) / L = (p.length - 1) / L := by
    rw [List.length_drop]
    rcases le_or_lt p.length L with hle | hlt
    · have h1 : p.length - L = 0 := by omega
      rw [h1, Nat.zero_add]
      exact (Nat.div_eq_of_lt (by omega)).trans (Nat.div_eq_of_lt (by omega)).symm
    · have h1 : p.length - L + L - 1 = (p.length - L - 1) + L := by omega
      have h2 : p.length - 1 = (p.length - L - 1) + L := by omega
      rw [h1, h2]
  unfold sliceChunks
  rw [hcount, hcount', List.range'_succ, List.map_cons, List.drop_zero]
  congr 1
  have hrange : (List.range' 0 ((p.length - 1) / L) L).map (fun x => L + x) =
      List.range' L ((p.length - 1) / L) L := by
    rw [List.map_add_range', Nat.add_zero]
  rw [Nat.zero_add, ← hrange, List.map_map]
  refine List.map_congr_left (fun i _ => ?_)
  simp only [Function.comp_apply, List.drop_drop]

theorem sliceChunks_flatten (L : Nat) (hL : 1 ≤ L) (p : List Nat) :
    (sliceChunks L p).flatten = p := by
  suffices h : ∀ n (q : List Nat), q.length = n → (sliceChunks L q).flatten = q from
    h p.length p rfl
  intro n
  induction n using Nat.strong_induction_on with
  | _ n ih =>
    intro p hn
    by_cases hp : p = []
    · rw [hp, sliceChunks_nil]; rfl
    · have hlt : (p.drop L).length < n := by
        subst hn
        simp only [List.length_drop]
        exact Nat.sub_lt (List.length_pos.mpr hp) hL
      rw [sliceChunks_cons L p hL hp, List.flatten_cons,
        ih (List.drop L p).length hlt (p.drop L) rfl, List.take_append_drop]

theorem sliceChunks_length_le (L : Nat) (hL : 1 ≤ L) (p : List Nat) :
    ∀ c ∈ sliceChunks L p, c.length ≤ L := by
  suffices h : ∀ n (q : List Nat), q.length = n → ∀ c ∈ sliceChunks L q, c.length ≤ L from
    h p.length p rfl
  intro n
  induction n using Nat.strong_induction_on with
  | _ n ih =>
    intro p hn
    by_cases hp : p = []
    · rw [hp, sliceChunks_nil]; intro c hc; cases hc
    · have hlt : (p.drop L).length < n := by
        subst hn
        simp only [List.length_drop]
        exact Nat.sub_lt (List.length_pos.mpr hp) hL
      rw [sliceChunks_cons L p hL hp]
      intro c hc
      rcases List.mem_cons.mp hc with h | h
      · rw [h, List.length_take]; exact Nat.min_le_left _ _
      · exact ih (p.drop L).length hlt (p.drop L) rfl c h

theorem sliceChunks_dropLast_length (L : Nat) (hL : 1 ≤ L) (p : List Nat) :
    ∀ c ∈ (sliceChunks L p).dropLast, c.length = L := by
  suffices h : ∀ n (q : List Nat), q.length = n →
      ∀ c ∈ (sliceChunks L q).dropLast, c.length = L from h p.length p rfl
  intro n
  induction n using Nat.strong_induction_on with
  | _ n ih =>
    intro p hn
    by_cases hp : p = []
    · rw [hp, sliceChunks_nil]; intro c hc; cases hc
    · have hlt : (p.drop L).length < n := by
        subst hn
        simp only [List.length_drop]
        exact Nat.sub_lt (List.length_pos.mpr hp) hL
      rw [sliceChunks_cons L p hL hp]
      intro c hc
      rcases eq_or_ne (sliceChunks L (p.drop L)) [] with he | he
      · rw [he] at hc; simp at hc
      · rw [List.dropLast_cons_of_ne_nil he] at hc
        rcases List.mem_cons.mp hc with h | h
        · have hdrop : p.drop L ≠ [] := by
            intro h0; rw [h0, sliceChunks_nil] at he; exact he rfl
          have hlen : L ≤ p.length := by
            by_contra hcon
            exact hdrop (List.drop_eq_nil_of_le (le_of_not_le hcon))
          rw [h, List.length_take]
          exact Nat.min_eq_left hlen
        · exact ih (p.drop L).length hlt (p.drop L) rfl c h

theorem addBytesToList_eq_single (msg : List Nat) (h0 : msg ≠ [])
    (h1 : msg.length ≤ 1536) : addBytesToList msg = [msg] := by
  rw [show addBytesToList msg = sliceChunks 1536 msg from rfl,
    sliceChunks_cons 1536 msg (by norm_num) h0,
    List.take_of_length_le h1, List.drop_eq_nil_of_le h1, sliceChunks_nil]

theorem packPerBytes_eq (s : KeyState) (payload : List Nat) (cmd seq : Nat)
    (hc : cmd < 256) (hs : seq < 256) (hl : payload.length < 65536) :
    packPerBytes s payload cmd seq =
      some ([2, cmd, seq, payload.length % 256, payload.length / 256] ++
        payload ++ le32 (crc32 s payload) ++ [3]) := by
  have hcrc : crc32 s payload < 2 ^ 32 := crc32_lt s payload
  norm_num at hcrc
  simp [packPerBytes, packU8, packU16le, packU32le, hc, hs, hl, hcrc]

theorem sendToBt_single (s : KeyState) (msg : List Nat) (cmd : Nat)
    (h0 : msg ≠ []) (h1 : msg.length ≤ 1536) :
    sendToBt s msg cmd = [packPerBytes s msg cmd 0] := by
  unfold sendToBt
  rw [addBytesToList_eq_single msg h0 h1]
  rfl

theorem registerCrcKeyToBt_eq (s : KeyState) (key : Nat) (h : key < 2 ^ 32) :
    registerCrcKeyToBt s key =
      some ([packPerBytes s (le32 (key ^^^ standardKey)) PRT_SET_CRC_KEY 0],
        { crckeyset := true, crcKey := key }) := by
  have hx : key ^^^ standardKey < 2 ^ 32 := Nat.xor_lt_two_pow h (by norm_num [standardKey])
  unfold registerCrcKeyToBt
  rw [packU32le, if_pos hx]
  simp only []
  rw [sendToBt_single s _ _ (by simp [le32]) (by simp [le32])]

/-- The key state at session start (`self.crckeyset = False` in `__init__`;
`self.crcKey` is unset and unread while `crckeyset` is false, so its value
here is arbitrary). -/
def initialKeyState : KeyState :=
  { crckeyset := false, crcKey := 0 }

/-! ## Claims -/

/-- C1: the claim asserts that decoding the bytes produced by
`packPerBytes` yields a frame with the encoded command, sequence and
payload.  The code does not: on the exact encoding of command 25,
sequence 0, payload `[0x05]` under the standard key, `resultParser`
returns zero frames (its loop guard compares an integer byte with the
string `"\x02"`, which is never true in Python 3). -/
theorem C1_decode_of_encode_yields_no_frame :
    resultParser ((packPerBytes initialKeyState [5] 25 0).getD []) = some [] :=
  resultParser_eq_empty _

/-- C2: wire layout.  Every frame `packPerBytes` produces is the start
marker 2, the command byte, the sequence byte, the little-endian u16
payload length, the payload, the little-endian u32 checksum of the
payload under the active key, and the end marker 3; in particular the
set-heat-density command (code 25) with payload `[0x05]` produces
exactly `02 19 00 01 00 05` followed by the checksum bytes and `03`. -/
theorem C2_wire_layout :
    (∀ (s : KeyState) (payload : List Nat) (cmd seq : Nat),
        cmd < 256 → seq < 256 → payload.length < 65536 →
        packPerBytes s payload cmd seq =
          some ([2, cmd, seq, payload.length % 256, payload.length / 256] ++
            payload ++ le32 (crc32 s payload) ++ [3]))
    ∧ (∀ s : KeyState, sendDensityToBt s 5 =
        some [some ([2, 25, 0, 1, 0, 5] ++ le32 (crc32 s [5]) ++ [3])]) := by
  constructor
  · exact fun s payload cmd seq hc hs hl => packPerBytes_eq s payload cmd seq hc hs hl
  · intro s
    unfold sendDensityToBt
    rw [show packU8 5 = some [5] from rfl]
    simp only [Option.map_some']
    rw [sendToBt_single s [5] PRT_SET_HEAT_DENSITY (by simp) (by norm_num),
      show PRT_SET_HEAT_DENSITY = 25 from rfl,
      packPerBytes_eq s [5] 25 0 (by norm_num) (by norm_num) (by norm_num)]
    norm_num

/-- Witness for C2 at the concrete initial state. -/
theorem C2_wire_layout_witness :
    packPerBytes initialKeyState [5] 25 0 =
      some ([2, 25, 0, 1, 0, 5] ++ le32 (crc32 initialKeyState [5]) ++ [3]) := by
  have h := C2_wire_layout.1 initialKeyState [5] 25 0 (by norm_num) (by norm_num)
    (by norm_num)
  simpa using h

/-- C3 counterexample: the valid frame for command 25, payload `[0x05]`,
has `[0x04]` in its payload position after flipping one bit
(`5 XOR 4 = 1`); the claim says decoding it fails with a checksum
mismatch, but `resultParser` succeeds, returning a frame list (empty),
and contains no checksum comparison at all. -/
theorem C3_single_bit_flip_not_detected :
    packPerBytes initialKeyState [5] 25 0 =
      some ([2, 25, 0, 1, 0, 5] ++ le32 (crc32 initialKeyState [5]) ++ [3])
    ∧ (5 : Nat) ^^^ 4 = 1
    ∧ resultParser ([2, 25, 0, 1, 0, 4] ++ le32 (crc32 initialKeyState [5]) ++ [3]) =
        some [] := by
  refine ⟨?_, by decide, resultParser_eq_empty _⟩
  have h := packPerBytes_eq initialKeyState [5] 25 0 (by norm_num) (by norm_num)
    (by norm_num)
  simpa using h

/-- C3 (amended): `resultParser` never recomputes or verifies a
checksum and has no checksum-mismatch failure; under Python 3 it returns
the empty frame list — a success — for every buffer, corrupted or not. -/
theorem C3_amended_no_checksum_verification :
    ∀ data : List Nat, resultParser data = some [] :=
  resultParser_eq_empty

/-- C4 counterexample: negotiating a second time in the same session is
neither rejected nor a no-op: from a state already negotiated to the
default key, `registerCrcKeyToBt` with key 5 succeeds and silently
overwrites the stored key with 5, a different key. -/
theorem C4_renegotiation_overwrites :
    (registerCrcKeyToBt { crckeyset := true, crcKey := registerCrcKeyDefault } 5).map
        (fun r => r.2) = some { crckeyset := true, crcKey := 5 }
    ∧ (5 : Nat) ≠ registerCrcKeyDefault := by
  constructor
  · rw [registerCrcKeyToBt_eq _ 5 (by norm_num)]
    rfl
  · decide

/-- C4 (amended): from an un-negotiated state every checksum uses the
standard key `0x35769521`; `registerCrcKeyToBt` sends the little-endian
u32 of `key XOR standardKey` in a frame whose own checksum is computed
under the pre-transition state, and moves to the negotiated state; after
the transition every checksum uses the new key.  However, the code has
no guard against re-negotiation: a second call silently overwrites the
key with the new value. -/
theorem C4_key_state_machine :
    ∀ (s : KeyState) (key : Nat), key < 2 ^ 32 → s.crckeyset = false →
      (∀ content, crc32 s content = zlibCrc32 standardKey content)
      ∧ registerCrcKeyToBt s key =
          some ([packPerBytes s (le32 (key ^^^ standardKey)) PRT_SET_CRC_KEY 0],
            { crckeyset := true, crcKey := key })
      ∧ (∀ content, crc32 { crckeyset := true, crcKey := key } content =
          zlibCrc32 key content)
      ∧ (∀ key2, key2 < 2 ^ 32 →
          (registerCrcKeyToBt { crckeyset := true, crcKey := key } key2).map
            (fun r => r.2) = some { crckeyset := true, crcKey := key2 }) := by
  intro s key hkey hset
  refine ⟨fun content => ?_, registerCrcKeyToBt_eq s key hkey, fun content => ?_,
    fun key2 hkey2 => ?_⟩
  · rw [crc32_eq_zlibCrc32]
    simp [activeKey, hset]
  · rw [crc32_eq_zlibCrc32]
    simp [activeKey]
  · rw [registerCrcKeyToBt_eq _ key2 hkey2]
    rfl

/-- Witness for C4 at the initial state and the default key. -/
theorem C4_key_state_machine_witness :
    registerCrcKeyToBt initialKeyState registerCrcKeyDefault =
      some ([packPerBytes initialKeyState
          (le32 (registerCrcKeyDefault ^^^ standardKey)) PRT_SET_CRC_KEY 0],
        { crckeyset := true, crcKey := registerCrcKeyDefault }) :=
  (C4_key_state_machine initialKeyState registerCrcKeyDefault (by decide) rfl).2.1

/-- C5 counterexample: the frame checksum of payload `[0x05]` under the
standard key is not the standard CRC-32 with the active key as the
initial register state (the zlib convention instead inverts the start
value before and the register after the byte loop). -/
theorem C5_not_key_as_register_seed :
    crc32 initialKeyState [5] ≠ crc32SpecSeeded (activeKey initialKeyState) [5] := by
  decide

/-- C5 (amended): the frame checksum is the standard reflected CRC-32 of
the payload in which the active key enters per zlib's continuation
convention: the initial register state is `key XOR 0xFFFFFFFF`, with the
standard final inversion. -/
theorem C5_checksum_is_zlib_seeded :
    ∀ (s : KeyState) (content : List Nat), activeKey s < 2 ^ 32 →
      crc32 s content = crc32SpecSeeded (activeKey s ^^^ 0xFFFFFFFF) content := by
  intro s content h
  rw [crc32_eq_zlibCrc32]
  unfold zlibCrc32 crc32SpecSeeded
  rw [Nat.mod_eq_of_lt h, Nat.mod_eq_of_lt (Nat.xor_lt_two_pow h (by norm_num))]

/-- Witness for C5 at the initial state and payload `[0x05]`. -/
theorem C5_checksum_is_zlib_seeded_witness :
    activeKey initialKeyState < 2 ^ 32
    ∧ crc32 initialKeyState [5] =
        crc32SpecSeeded (activeKey initialKeyState ^^^ 0xFFFFFFFF) [5] :=
  ⟨by decide, C5_checksum_is_zlib_seeded initialKeyState [5] (by decide)⟩

/-- C6: chunking.  For every payload and every positive chunk size the
produced chunks concatenate back to the payload, every chunk is at most
the chunk size, and every chunk except possibly the last has exactly the
chunk size; the implementation fixes the chunk size to 1536
(`addBytesToList`). -/
theorem C6_chunking :
    ∀ (payload : List Nat) (max_chunk : Nat), 1 ≤ max_chunk →
      (sliceChunks max_chunk payload).flatten = payload
      ∧ (∀ c ∈ sliceChunks max_chunk payload, c.length ≤ max_chunk)
      ∧ (∀ c ∈ (sliceChunks max_chunk payload).dropLast, c.length = max_chunk)
      ∧ addBytesToList payload = sliceChunks 1536 payload :=
  fun payload L hL =>
    ⟨sliceChunks_flatten L hL payload, sliceChunks_length_le L hL payload,
      sliceChunks_dropLast_length L hL payload, rfl⟩

/-- Witness for C6 on a five-byte payload with chunk size 2. -/
theorem C6_chunking_witness :
    (sliceChunks 2 [1, 2, 3, 4, 5]).flatten = [1, 2, 3, 4, 5] :=
  (C6_chunking [1, 2, 3, 4, 5] 2 (by norm_num)).1

/-- C7 counterexample: `addBytesToList` on the empty payload returns the
empty list of chunks (Python's `range(0, 0, 1536)` is empty), not one
empty chunk as the claim states. -/
theorem C7_empty_payload_yields_no_chunk :
    addBytesToList [] = [] ∧ addBytesToList [] ≠ [[]] := by
  constructor
  · rfl
  · decide

/-- C7 (amended): splitting an empty payload yields zero chunks, so a
command carrying no data results in zero frames being transmitted. -/
theorem C7_empty_payload_zero_frames :
    ∀ (s : KeyState) (cmd : Nat), addBytesToList [] = [] ∧ sendToBt s [] cmd = [] :=
  fun _s _cmd => ⟨rfl, rfl⟩

/-- C8: the claim asserts a buffer of two back-to-back valid frames
demuxes to exactly two frames.  The code yields zero: on the
concatenation of the valid frames for command 25 / payload `[0x05]` and
command 26 / payload `[0x01, 0x00]`, `resultParser` returns the empty
list (its loop guard compares an integer byte with the string `"\x02"`,
never true in Python 3). -/
theorem C8_two_frames_demux_to_none :
    resultParser ((packPerBytes initialKeyState [5] 25 0).getD [] ++
      (packPerBytes initialKeyState [1, 0] 26 0).getD []) = some [] :=
  resultParser_eq_empty _

set_option maxRecDepth 8192 in
/-- C9: bitmap packing.  The row `[1,0,1,0,1,0,1,0]` packs to `0xAA`
(first pixel most significant); 384 zero pixels pack to 48 zero bytes;
and for a 0/1 matrix the pack fails with the invalid-bitmap-length error
exactly when the total pixel count is not a multiple of 8. -/
theorem C9_bitmap_packing :
    binimage2bitstream [[1, 0, 1, 0, 1, 0, 1, 0]] = Except.ok [0xAA]
    ∧ binimage2bitstream [List.replicate 384 0] =
        Except.ok (List.replicate 48 0)
    ∧ (∀ m : List (List Nat), (∀ row ∈ m, ∀ p ∈ row, p ≤ 1) →
        (binimage2bitstream m = Except.error PackError.invalidBitmapLength ↔
          m.flatten.length % 8 ≠ 0)) := by
  refine ⟨rfl, rfl, fun m hbin => ?_⟩
  unfold binimage2bitstream
  by_cases hnil : m.flatten = []
  · rw [if_pos hnil]
    simp [hnil]
  · have hall : m.flatten.all (fun p => p ≤ 1) = true := by
      rw [List.all_eq_true]
      intro p hp
      rcases List.mem_flatten.mp hp with ⟨row, hrow, hpin⟩
      simpa using hbin row hrow p hpin
    rw [if_neg hnil, if_pos hall]
    unfold pack_block
    split_ifs with h8
    · exact iff_of_true rfl h8
    · exact iff_of_false (by simp) h8

/-- Witness for C9: a 3-pixel binary matrix fails with the
invalid-bitmap-length error. -/
theorem C9_bitmap_packing_witness :
    binimage2bitstream [[1, 0, 1]] = Except.error PackError.invalidBitmapLength :=
  (C9_bitmap_packing.2.2 [[1, 0, 1]] (by decide)).mpr (by decide)

/-- C10: the default negotiated key is the fixed constant
`0x6968634 XOR 0x2E696D = 0x06B8EF59`, chosen independently of any
device response; the negotiation payload is therefore always the
little-endian u32 of `0x06B8EF59 XOR 0x35769521 = 0x33CE7A78`, and every
checksum computed in the post-negotiation state is seeded with
`0x06B8EF59`. -/
theorem C10_default_key_constant :
    registerCrcKeyDefault = 0x06B8EF59
    ∧ (∀ s : KeyState, registerCrcKeyToBt s registerCrcKeyDefault =
        some ([packPerBytes s [0x78, 0x7A, 0xCE, 0x33] PRT_SET_CRC_KEY 0],
          { crckeyset := true, crcKey := 0x06B8EF59 }))
    ∧ (∀ content, crc32 { crckeyset := true, crcKey := registerCrcKeyDefault } content =
        zlibCrc32 0x06B8EF59 content) := by
  refine ⟨by decide, fun s => ?_, fun content => ?_⟩
  · rw [registerCrcKeyToBt_eq s registerCrcKeyDefault (by decide),
      show le32 (registerCrcKeyDefault ^^^ standardKey) = [0x78, 0x7A, 0xCE, 0x33]
        from by decide,
      show registerCrcKeyDefault = 0x06B8EF59 from by decide]
  · rw [crc32_eq_zlibCrc32,
      show activeKey { crckeyset := true, crcKey := registerCrcKeyDefault } = 0x06B8EF59
        from by decide]
